import Mathlib

/-!
Shallow embedding of the `benchy` HTTP benchmark core (src/main.rs) and
verification of its specification claims.

Modelling conventions:
* `Duration` values are modelled as natural numbers (nanoseconds); `Duration::ZERO`
  and `Duration::default()` are `0`.  Division of a `Duration` by a count is
  floor division on nanoseconds, i.e. `Nat` division.
* HTTP status codes and protocol versions are natural numbers.
* The atomic counters of `Stats` are modelled by the per-request increments a
  call to `send_request` performs (`successInc`, `failedInc`); a run's totals
  are the sums of the increments.
* The shared `AbortFlag` is modelled by the boolean values the worker observes
  at each of its explicit load points (the check at the top of the drain loop
  and the check guarding a refill dispatch), and by the boolean stored in the
  collector's state.
* The transport capability (`reqwest`) is external: one completed call is a
  `TransportResult`, either a response (status, negotiated version, rendered
  headers, body text) or a transport error (message, optional status).
-/

namespace Benchy

/-- Mirror of `ErrorDetails` from src/main.rs: message, optional HTTP status, optional
serialized response headers, optional response body text. -/
structure ErrorDetails where
  message : String
  status : Option Nat
  headers : Option String
  body : Option String
  deriving Repr, DecidableEq

/-- Mirror of `RequestResult` from src/main.rs: `Success(latency)`, `Failed(latency)` or
`Error(details)`. -/
inductive RequestResult where
  | Success (latency : Nat)
  | Failed (latency : Nat)
  | Error (details : ErrorDetails)
  deriving Repr, DecidableEq

/-- The test `matches!(&result, RequestResult::Error(_))` of src/main.rs:151. -/
def RequestResult.isError : RequestResult → Bool
  | .Error _ => true
  | _ => false

/-- Whether an outcome is the `Success` variant. -/
def RequestResult.isSuccess : RequestResult → Bool
  | .Success _ => true
  | _ => false

/-- The latency a result contributes to the collector's series:
`Success`/`Failed` carry a duration, `Error` carries none. -/
def RequestResult.latencyOf : RequestResult → Option Nat
  | .Success d => some d
  | .Failed d => some d
  | .Error _ => none

/-- One completed call of the external transport: either a response with a
status code, the negotiated protocol version, the rendered headers and the
body text, or a transport-level error with a message and an optional status. -/
inductive TransportResult where
  | ok (status : Nat) (version : Nat) (headers : String) (body : String)
  | err (message : String) (status : Option Nat)
  deriving Repr, DecidableEq

/-- The check `status.is_success()` of src/main.rs:287: the 2xx range. -/
def statusIsSuccess (status : Nat) : Bool :=
  200 ≤ status && status < 300

/-- The observable effects of one call of `send_request` (src/main.rs:252-324):
the returned `RequestResult`, the increments applied to `Stats.success` and
`Stats.failed`, and whether the protocol-mismatch warning was printed. -/
structure SendEffect where
  outcome : RequestResult
  successInc : Nat
  failedInc : Nat
  warned : Bool
  deriving Repr, DecidableEq

/-- The body of `send_request` (src/main.rs:252-324) as a function of the completed
transport call.  `elapsed` is the measured wall-clock duration.  The
human-readable reason phrase appended by `status.canonical_reason()` comes
from the external HTTP library and is rendered here as the status number
alone. -/
def send_request (fail_fast : Bool) (elapsed : Nat) (expectedVersion : Nat)
    (t : TransportResult) : SendEffect :=
  match t with
  | .ok status version headers body =>
    let warned := version ≠ expectedVersion
    if statusIsSuccess status then
      { outcome := .Success elapsed, successInc := 1, failedInc := 0, warned := warned }
    else if fail_fast then
      { outcome := .Error
          { message := "HTTP " ++ toString status
            status := some status
            headers := some headers
            body := some body }
        successInc := 0, failedInc := 1, warned := warned }
    else
      { outcome := .Failed elapsed, successInc := 0, failedInc := 1, warned := warned }
  | .err message status =>
    if fail_fast then
      { outcome := .Error
          { message := message, status := status, headers := none, body := none }
        successInc := 0, failedInc := 1, warned := false }
    else
      { outcome := .Failed elapsed, successInc := 0, failedInc := 1, warned := false }

/-- A sequence of completed requests of one run: for each, the elapsed time,
the negotiated-version expectation and the transport result.  Returns the
total `success` increment, the total `failed` increment and the outcomes in
order. -/
def runRequests (fail_fast : Bool) :
    List (Nat × Nat × TransportResult) → Nat × Nat × List RequestResult
  | [] => (0, 0, [])
  | (elapsed, v, t) :: rest =>
    let e := send_request fail_fast elapsed v t
    let acc := runRequests fail_fast rest
    (e.successInc + acc.1, e.failedInc + acc.2.1, e.outcome :: acc.2.2)

/-- Per-worker request quota (src/main.rs:119-135):
`reqs_per_worker = N / C`, `remainder = N % C`,
`my_reqs = reqs_per_worker + if i < remainder then 1 else 0`. -/
def workerQuota (requests connections i : Nat) : Nat :=
  requests / connections + if i < requests % connections then 1 else 0

/-- One iteration of a worker's drain loop (src/main.rs:146-162): the completed
result delivered by `in_flight.next()`, together with the `AbortFlag` value the
worker reads at the top-of-loop check (line 147) and the value it reads at the
refill guard (line 158). -/
structure StepObs where
  result : RequestResult
  abortAtCheck : Bool
  abortAtRefill : Bool
  deriving Repr, DecidableEq

/-- The worker drain loop (src/main.rs:146-162) over a sequence of completion
observations.  State: `sent` requests dispatched so far, quota `my_reqs`.
Returns the outcomes emitted to the collector (in order) and the final `sent`
count.  Breaking out of the loop discards the remaining observations: the
worker consumes no further completions. -/
def drainLoop : List StepObs → Nat → Nat → List RequestResult × Nat
  | [], sent, _ => ([], sent)
  | o :: rest, sent, my_reqs =>
    if o.abortAtCheck then ([], sent)
    else if o.result.isError then ([o.result], sent)
    else
      let sent' := if sent < my_reqs ∧ o.abortAtRefill = false then sent + 1 else sent
      let next := drainLoop rest sent' my_reqs
      (o.result :: next.1, next.2)

/-- The worker seed loop (src/main.rs:141-144): while `sent < my_reqs` and
`in_flight.len() < pipeline` and the `AbortFlag` reads false, dispatch one
request.  During seeding `in_flight.len() = sent`; each list entry is the flag
value read by one iteration's condition check.  Returns the final `sent`. -/
def seedLoop : List Bool → Nat → Nat → Nat → Nat
  | [], sent, _, _ => sent
  | a :: rest, sent, my_reqs, pipeline =>
    if sent < my_reqs ∧ sent < pipeline ∧ a = false then
      seedLoop rest (sent + 1) my_reqs pipeline
    else sent

/-- The collector's mutable state (src/main.rs:170-188): the latency series,
the captured first error, and the shared abort flag it stores into. -/
structure CollectorState where
  latencies : List Nat
  first_error : Option ErrorDetails
  abort : Bool
  deriving Repr, DecidableEq

/-- One received result processed by the collector loop (src/main.rs:174-186):
`Success`/`Failed` push their duration; an `Error` is captured (and the abort
flag stored) only when `fail_fast` holds and no error was captured yet. -/
def collectorStep (fail_fast : Bool) (st : CollectorState) (r : RequestResult) :
    CollectorState :=
  match r with
  | .Success d => { st with latencies := st.latencies ++ [d] }
  | .Failed d => { st with latencies := st.latencies ++ [d] }
  | .Error details =>
    if fail_fast ∧ st.first_error = none then
      { st with first_error := some details, abort := true }
    else st

/-- The collector task (src/main.rs:170-188): drain the channel contents in
order, starting from the empty series, no captured error, abort flag clear. -/
def collectorRun (fail_fast : Bool) (results : List RequestResult) : CollectorState :=
  results.foldl (collectorStep fail_fast) { latencies := [], first_error := none, abort := false }

/-- The first `Error` details occurring in a result sequence, if any. -/
def firstErrorOf (results : List RequestResult) : Option ErrorDetails :=
  results.findSome? fun r =>
    match r with
    | .Error d => some d
    | _ => none

/-- The call `latencies.sort_unstable()` of src/main.rs:218: sort ascending. -/
def sortSeries (l : List Nat) : List Nat :=
  List.insertionSort (· ≤ ·) l

/-- The statistics block computed by the orchestrator (src/main.rs:218-228). -/
structure StatsReport where
  p50 : Nat
  p95 : Nat
  p99 : Nat
  avg : Nat
  deriving Repr, DecidableEq

/-- The statistics engine (src/main.rs:218-228): sort, index the percentiles
with `get(..).copied().unwrap_or_default()` (zero duration on a missing
index), and average by floor division when the series is non-empty. -/
def computeStats (latencies : List Nat) : StatsReport :=
  let sorted := sortSeries latencies
  let len := sorted.length
  { p50 := sorted.getD (len / 2) 0
    p95 := sorted.getD (len * 95 / 100) 0
    p99 := sorted.getD (len * 99 / 100) 0
    avg := if len > 0 then sorted.sum / len else 0 }

/-- Modelled from the spec (§4.4): `series[i]` "clamped to a defined zero
duration if `L == 0` or index out of bounds" — the spec-side description of
one percentile lookup, to be compared with `computeStats`. -/
def specIndex (s : List Nat) (i : Nat) : Nat :=
  if h : i < s.length then s[i] else 0

/-- Minimum of a latency series (`min(series)` of the spec's §8 property). -/
def listMin : List Nat → Nat
  | [] => 0
  | [x] => x
  | x :: y :: rest => Nat.min x (listMin (y :: rest))

/-- Maximum of a latency series (`max(series)` of the spec's §8 property). -/
def listMax : List Nat → Nat
  | [] => 0
  | [x] => x
  | x :: y :: rest => Nat.max x (listMax (y :: rest))

/-- What the orchestrator reports after the collector joins
(src/main.rs:194-248): either the error-details block or the statistics
block. -/
inductive FinalReport where
  | errorBlock (details : ErrorDetails)
  | statsBlock (success failed : Nat) (stats : StatsReport)
  deriving Repr, DecidableEq

/-- The reporting tail of `main` (src/main.rs:194-248): a captured error is
printed as the error-details block and the process exits with status 1 before
any statistics are computed; otherwise the statistics block is printed and
`main` returns `Ok(())`, exit status 0.  Returns the printed block and the
process exit status. -/
def finalize (first_error : Option ErrorDetails) (success failed : Nat)
    (latencies : List Nat) : FinalReport × Nat :=
  match first_error with
  | some details => (.errorBlock details, 1)
  | none => (.statsBlock success failed (computeStats latencies), 0)

/-! ## Helper lemmas -/

/-- Sum of the indicator of `i < m` over `range c`. -/
theorem sum_ite_lt_eq (c m : Nat) :
    (∑ i in Finset.range c, if i < m then 1 else 0) = if m ≤ c then m else c := by
  induction c with
  | zero =>
    simp only [Finset.range_zero, Finset.sum_empty]
    split <;> omega
  | succ c ih =>
    rw [Finset.sum_range_succ, ih]
    repeat' split
    all_goals omega

/-- The sorted series has the length of the original series. -/
theorem sortSeries_length (l : List Nat) : (sortSeries l).length = l.length :=
  List.length_insertionSort (· ≤ ·) l

/-- The sorted series has the sum of the original series. -/
theorem sortSeries_sum (l : List Nat) : (sortSeries l).sum = l.sum :=
  (List.perm_insertionSort (· ≤ ·) l).sum_eq

/-- The sorted series is sorted ascending. -/
theorem sortSeries_sorted (l : List Nat) : List.Sorted (· ≤ ·) (sortSeries l) :=
  List.sorted_insertionSort (· ≤ ·) l

/-- Defaulted indexing agrees with the spec-side clamped lookup. -/
theorem getD_eq_specIndex (s : List Nat) (i : Nat) : s.getD i 0 = specIndex s i := by
  unfold specIndex
  split
  · exact List.getD_eq_getElem s 0 (by assumption)
  · exact List.getD_eq_default s 0 (by omega)

/-- Defaulted indexing into a sorted list is monotone in the index while the
larger index is in bounds. -/
theorem sorted_getD_mono {s : List Nat} (hs : List.Sorted (· ≤ ·) s) {i j : Nat}
    (hij : i ≤ j) (hj : j < s.length) : s.getD i 0 ≤ s.getD j 0 := by
  have hi : i < s.length := lt_of_le_of_lt hij hj
  rw [List.getD_eq_getElem s 0 hi, List.getD_eq_getElem s 0 hj]
  rcases Nat.eq_or_lt_of_le hij with rfl | hlt
  · exact le_refl _
  · have h := hs.rel_get_of_lt
      (show (⟨i, hi⟩ : Fin s.length) < ⟨j, hj⟩ from hlt)
    simpa using h

/-- The minimum of a series, scaled by its length, bounds the sum below. -/
theorem listMin_mul_length_le_sum : ∀ l : List Nat, listMin l * l.length ≤ l.sum
  | [] => by simp [listMin]
  | [x] => by simp [listMin]
  | x :: y :: rest => by
    have ih := listMin_mul_length_le_sum (y :: rest)
    have hmin : listMin (x :: y :: rest) = Nat.min x (listMin (y :: rest)) := rfl
    calc listMin (x :: y :: rest) * (x :: y :: rest).length
        = listMin (x :: y :: rest) * (y :: rest).length + listMin (x :: y :: rest) := by
          simp [Nat.mul_succ]
      _ ≤ (y :: rest).sum + x := by
          refine Nat.add_le_add (le_trans ?_ ih) ?_
          · exact Nat.mul_le_mul (by rw [hmin]; exact Nat.min_le_right _ _) (le_refl _)
          · rw [hmin]; exact Nat.min_le_left _ _
      _ = (x :: y :: rest).sum := by simp [Nat.add_comm]

/-- The maximum of a series, scaled by its length, bounds the sum above. -/
theorem sum_le_listMax_mul_length : ∀ l : List Nat, l.sum ≤ listMax l * l.length
  | [] => by simp [listMax]
  | [x] => by simp [listMax]
  | x :: y :: rest => by
    have ih := sum_le_listMax_mul_length (y :: rest)
    have hmax : listMax (x :: y :: rest) = Nat.max x (listMax (y :: rest)) := rfl
    calc (x :: y :: rest).sum = x + (y :: rest).sum := by simp
      _ ≤ listMax (x :: y :: rest) + listMax (x :: y :: rest) * (y :: rest).length := by
          refine Nat.add_le_add ?_ (le_trans ih ?_)
          · rw [hmax]; exact Nat.le_max_left _ _
          · exact Nat.mul_le_mul (by rw [hmax]; exact Nat.le_max_right _ _) (le_refl _)
      _ = listMax (x :: y :: rest) * (x :: y :: rest).length := by
          simp only [List.length_cons]
          ring

/-! ## Claim theorems -/

/-- C2: for every total request count `N` and worker count `C ≥ 1`, worker `i`
receives quota `N / C + (1 if i < N % C else 0)`; the quotas sum to `N`
exactly, workers at index `≥ N % C` get the base share, only workers at index
`< N % C` get one extra unit, and `N = 10, C = 3` yields quotas `4, 3, 3`. -/
theorem workerQuota_distributes (n c : Nat) (hc : 1 ≤ c) :
    (∑ i in Finset.range c, workerQuota n c i) = n
    ∧ (∀ i, n % c ≤ i → workerQuota n c i = n / c)
    ∧ (∀ i, i < n % c → workerQuota n c i = n / c + 1)
    ∧ workerQuota 10 3 0 = 4 ∧ workerQuota 10 3 1 = 3 ∧ workerQuota 10 3 2 = 3 := by
  refine ⟨?_, ?_, ?_, by decide, by decide, by decide⟩
  · unfold workerQuota
    rw [Finset.sum_add_distrib, Finset.sum_const, Finset.card_range, sum_ite_lt_eq,
      smul_eq_mul]
    have hmod : n % c < c := Nat.mod_lt n hc
    rw [if_pos (Nat.le_of_lt hmod)]
    exact Nat.div_add_mod n c
  · intro i hi
    unfold workerQuota
    rw [if_neg (by omega)]
    omega
  · intro i hi
    unfold workerQuota
    rw [if_pos hi]

/-- Witness for C2 at `N = 10`, `C = 3`. -/
theorem workerQuota_distributes_witness :
    (∑ i in Finset.range 3, workerQuota 10 3 i) = 10
    ∧ workerQuota 10 3 2 = 10 / 3
    ∧ workerQuota 10 3 0 = 10 / 3 + 1 :=
  ⟨(workerQuota_distributes 10 3 (by decide)).1,
   (workerQuota_distributes 10 3 (by decide)).2.1 2 (by decide),
   (workerQuota_distributes 10 3 (by decide)).2.2.1 0 (by decide)⟩

/-- C3: the statistics engine sorts the series and returns
`p50 = sorted[L/2]`, `p95 = sorted[L*95/100]`, `p99 = sorted[L*99/100]`
(integer division), each falling back to zero duration when `L = 0` or the
index is out of bounds, and `avg = sum(series)/L` for `L > 0` and zero
duration for `L = 0`; on the empty series every value is zero and no division
by zero occurs. -/
theorem computeStats_eq_spec :
    (∀ l : List Nat,
      computeStats l =
        { p50 := specIndex (sortSeries l) (l.length / 2)
          p95 := specIndex (sortSeries l) (l.length * 95 / 100)
          p99 := specIndex (sortSeries l) (l.length * 99 / 100)
          avg := if l.length > 0 then l.sum / l.length else 0 })
    ∧ computeStats [] = { p50 := 0, p95 := 0, p99 := 0, avg := 0 } := by
  have key : ∀ l : List Nat,
      computeStats l =
        { p50 := specIndex (sortSeries l) (l.length / 2)
          p95 := specIndex (sortSeries l) (l.length * 95 / 100)
          p99 := specIndex (sortSeries l) (l.length * 99 / 100)
          avg := if l.length > 0 then l.sum / l.length else 0 } := by
    intro l
    simp only [computeStats]
    rw [sortSeries_length, sortSeries_sum, getD_eq_specIndex, getD_eq_specIndex,
      getD_eq_specIndex]
  exact ⟨key, by rw [key]; rfl⟩

/-- C9: a captured first error makes the orchestrator print only the
error-details block and exit with status 1 (no statistics); with no captured
error it prints the statistics block and exits with status 0. -/
theorem finalize_reports :
    (∀ (details : ErrorDetails) (success failed : Nat) (latencies : List Nat),
      finalize (some details) success failed latencies
        = (FinalReport.errorBlock details, 1))
    ∧ (∀ (success failed : Nat) (latencies : List Nat),
      finalize none success failed latencies
        = (FinalReport.statsBlock success failed (computeStats latencies), 0)) :=
  ⟨fun _ _ _ _ => rfl, fun _ _ _ => rfl⟩

/-- One completed request increments exactly one of the two counters:
`success` when the outcome is `Success`, `failed` otherwise — also for
`Error` outcomes, because src/main.rs:292 and :310 increment `failed`
before the `fail_fast` promotion. -/
theorem send_request_inc_cases (ff : Bool) (e v : Nat) (t : TransportResult) :
    (send_request ff e v t).successInc
        = (if (send_request ff e v t).outcome.isSuccess then 1 else 0)
    ∧ (send_request ff e v t).failedInc
        = (if (send_request ff e v t).outcome.isSuccess then 0 else 1) := by
  cases t <;> simp only [send_request] <;>
    repeat' split
  all_goals simp_all [RequestResult.isSuccess]

/-- Totals over a run: each completed request contributes one increment, so
`success + failed` equals the number of completed requests. -/
theorem runRequests_total (ff : Bool) (reqs : List (Nat × Nat × TransportResult)) :
    (runRequests ff reqs).1 + (runRequests ff reqs).2.1 = reqs.length := by
  induction reqs with
  | nil => rfl
  | cons r rest ih =>
    obtain ⟨e, v, t⟩ := r
    obtain ⟨h1, h2⟩ := send_request_inc_cases ff e v t
    simp only [runRequests, List.length_cons]
    by_cases hs : (send_request ff e v t).outcome.isSuccess
    · rw [h1, h2, if_pos hs, if_pos hs]; omega
    · rw [h1, h2, if_neg hs, if_neg hs]; omega

/-- C1 (counterexample): with fail-fast enabled, a completed HTTP 500
response produces an `Error` outcome and nevertheless increments
`Stats.failed` by one — the increment at src/main.rs:292 happens before the
fail-fast promotion, so Error outcomes are counted. -/
theorem send_request_error_increments_failed :
    ((send_request true 7 2 (.ok 500 2 "h" "b")).outcome.isError = true)
    ∧ (send_request true 7 2 (.ok 500 2 "h" "b")).failedInc = 1
    ∧ (send_request true 7 2 (.ok 500 2 "h" "b")).successInc = 0 := by
  refine ⟨rfl, rfl, rfl⟩

/-- C1 (amended): every completed request increments exactly one of
`Stats.success`/`Stats.failed` — `success` for a `Success` outcome, `failed`
for `Failed` and also for `Error` outcomes — so `success + failed` equals the
number of completed requests, Error-producing ones included. -/
theorem send_request_counts_every_completion :
    (∀ (ff : Bool) (e v : Nat) (t : TransportResult),
      (send_request ff e v t).successInc + (send_request ff e v t).failedInc = 1
      ∧ (send_request ff e v t).successInc
          = (if (send_request ff e v t).outcome.isSuccess then 1 else 0)
      ∧ (send_request ff e v t).failedInc
          = (if (send_request ff e v t).outcome.isSuccess then 0 else 1))
    ∧ (∀ (ff : Bool) (reqs : List (Nat × Nat × TransportResult)),
      (runRequests ff reqs).1 + (runRequests ff reqs).2.1 = reqs.length) := by
  refine ⟨fun ff e v t => ?_, runRequests_total⟩
  obtain ⟨h1, h2⟩ := send_request_inc_cases ff e v t
  refine ⟨?_, h1, h2⟩
  rw [h1, h2]
  split <;> omega

/-- Without fail-fast, no call of `send_request` returns an `Error` outcome. -/
theorem send_request_no_error_without_failfast (e v : Nat) (t : TransportResult) :
    (send_request false e v t).outcome.isError = false := by
  cases t <;> simp only [send_request] <;> repeat' split
  all_goals simp_all [RequestResult.isError]

/-- C6: when fail-fast is disabled, `send_request` never produces an `Error`
outcome — transport failures and non-2xx responses are classified as
`Failed` — and over a whole run `success + failed` equals the number of
dispatched requests that completed. -/
theorem no_failfast_no_error :
    (∀ (e v : Nat) (t : TransportResult),
      (send_request false e v t).outcome.isError = false)
    ∧ (∀ reqs : List (Nat × Nat × TransportResult),
      ((runRequests false reqs).2.2.any RequestResult.isError) = false
      ∧ (runRequests false reqs).1 + (runRequests false reqs).2.1 = reqs.length) := by
  refine ⟨send_request_no_error_without_failfast, fun reqs => ⟨?_, runRequests_total false reqs⟩⟩
  induction reqs with
  | nil => rfl
  | cons r rest ih =>
    obtain ⟨e, v, t⟩ := r
    simp only [runRequests, List.any_cons, Bool.or_eq_false_iff]
    exact ⟨send_request_no_error_without_failfast e v t, ih⟩

/-- Collector runs starting from a state that already captured an error leave
the captured error and the abort flag unchanged and only extend the latency
series. -/
theorem collector_foldl_captured (rs : List RequestResult) (lat : List Nat)
    (d : ErrorDetails) (ab : Bool) :
    rs.foldl (collectorStep true) ⟨lat, some d, ab⟩
      = ⟨lat ++ rs.filterMap RequestResult.latencyOf, some d, ab⟩ := by
  induction rs generalizing lat with
  | nil => simp
  | cons r rest ih =>
    cases r with
    | Success dd =>
      simp [collectorStep, RequestResult.latencyOf, ih]
    | Failed dd =>
      simp [collectorStep, RequestResult.latencyOf, ih]
    | Error dd =>
      simp [collectorStep, RequestResult.latencyOf, ih]

/-- Collector runs starting from a state with no captured error: the series
collects exactly the `Success`/`Failed` durations, the captured error is the
first `Error` of the sequence, and the abort flag ends set exactly when some
`Error` occurred. -/
theorem collector_foldl_uncaptured (rs : List RequestResult) (lat : List Nat) (ab : Bool) :
    rs.foldl (collectorStep true) ⟨lat, none, ab⟩
      = ⟨lat ++ rs.filterMap RequestResult.latencyOf, firstErrorOf rs,
         ab || (firstErrorOf rs).isSome⟩ := by
  induction rs generalizing lat with
  | nil => simp [firstErrorOf]
  | cons r rest ih =>
    cases r with
    | Success dd =>
      simp [collectorStep, RequestResult.latencyOf, firstErrorOf,
        List.findSome?_cons, ih]
    | Failed dd =>
      simp [collectorStep, RequestResult.latencyOf, firstErrorOf,
        List.findSome?_cons, ih]
    | Error dd =>
      rw [List.foldl_cons]
      have hstep : collectorStep true ⟨lat, none, ab⟩ (.Error dd)
          = ⟨lat, some dd, true⟩ := by
        simp [collectorStep]
      rw [hstep, collector_foldl_captured]
      simp [firstErrorOf, List.findSome?_cons, RequestResult.latencyOf]

/-- C4: in fail-fast mode the collector captures at most one error per run —
the first `Error` received becomes the captured error and sets the abort
flag, every later `Error` is ignored (neither captured nor contributing a
latency), and the latency series holds exactly the `Success`/`Failed`
durations. -/
theorem collector_captures_first_error (rs : List RequestResult) :
    (collectorRun true rs).first_error = firstErrorOf rs
    ∧ (collectorRun true rs).latencies = rs.filterMap RequestResult.latencyOf
    ∧ (collectorRun true rs).abort = (firstErrorOf rs).isSome := by
  unfold collectorRun
  rw [collector_foldl_uncaptured]
  simp

/-- C5: a worker that reads the abort flag set at the top-of-loop completion
check stops at once — it emits nothing (the just-completed result included),
consumes no further completions and dispatches nothing; and while the flag
reads set, neither the refill guard of the drain loop nor the seed loop
dispatches a new request. -/
theorem abort_flag_stops_worker :
    (∀ (o : StepObs) (rest : List StepObs) (sent my_reqs : Nat),
      o.abortAtCheck = true → drainLoop (o :: rest) sent my_reqs = ([], sent))
    ∧ (∀ (steps : List StepObs) (sent my_reqs : Nat),
      (∀ s ∈ steps, s.abortAtRefill = true) →
        (drainLoop steps sent my_reqs).2 = sent)
    ∧ (∀ (flags : List Bool) (sent my_reqs pipeline : Nat),
      (∀ a ∈ flags, a = true) → seedLoop flags sent my_reqs pipeline = sent) := by
  refine ⟨?_, ?_, ?_⟩
  · intro o rest sent q h
    simp [drainLoop, h]
  · intro steps
    induction steps with
    | nil => intro sent q _; rfl
    | cons o rest ih =>
      intro sent q h
      have ho : o.abortAtRefill = true := h o (List.mem_cons_self o rest)
      have hrest : ∀ s ∈ rest, s.abortAtRefill = true :=
        fun s hs => h s (List.mem_cons_of_mem o hs)
      by_cases hc : o.abortAtCheck = true
      · simp [drainLoop, hc]
      · by_cases he : o.result.isError = true
        · simp [drainLoop, hc, he]
        · have hsent : (if sent < q ∧ o.abortAtRefill = false then sent + 1 else sent)
              = sent := by
            rw [ho]; simp
          simp [drainLoop, hc, he, hsent, ih sent q hrest]
  · intro flags
    induction flags with
    | nil => intro sent q p _; rfl
    | cons a rest ih =>
      intro sent q p h
      have ha : a = true := h a (List.mem_cons_self a rest)
      simp [seedLoop, ha]

/-- Witness for C5: one abort-observed completion stops a worker cold, and a
set flag blocks every refill and seed dispatch. -/
theorem abort_flag_stops_worker_witness :
    drainLoop [⟨.Success 5, true, true⟩] 0 4 = ([], 0)
    ∧ (drainLoop [⟨.Success 5, false, true⟩, ⟨.Failed 6, false, true⟩] 0 4).2 = 0
    ∧ seedLoop [true, true] 0 4 2 = 0 :=
  ⟨abort_flag_stops_worker.1 ⟨.Success 5, true, true⟩ [] 0 4 rfl,
   abort_flag_stops_worker.2.1 [⟨.Success 5, false, true⟩, ⟨.Failed 6, false, true⟩]
     0 4 (by decide),
   abort_flag_stops_worker.2.2 [true, true] 0 4 2 (by decide)⟩

/-- C8: a worker whose completed request yields an `Error` outcome emits that
one outcome and then stops immediately: it consumes no further completion of
its in-flight window and dispatches no replacement request. -/
theorem error_emission_stops_worker (o : StepObs) (rest : List StepObs)
    (sent my_reqs : Nat) (hcheck : o.abortAtCheck = false)
    (herr : o.result.isError = true) :
    drainLoop (o :: rest) sent my_reqs = ([o.result], sent) := by
  simp [drainLoop, hcheck, herr]

/-- Witness for C8: a worker hitting an `Error` with the flag still clear
emits exactly that error and keeps its dispatch count. -/
theorem error_emission_stops_worker_witness :
    drainLoop [⟨.Error ⟨"boom", none, none, none⟩, false, false⟩,
      ⟨.Success 1, false, false⟩] 0 9
      = ([.Error ⟨"boom", none, none, none⟩], 0) :=
  error_emission_stops_worker ⟨.Error ⟨"boom", none, none, none⟩, false, false⟩
    [⟨.Success 1, false, false⟩] 0 9 rfl rfl

/-- C7: on every non-empty latency series the reported percentiles satisfy
`p50 ≤ p95 ≤ p99`, and the reported average lies between the minimum and the
maximum of the series. -/
theorem percentile_order_and_avg_bounds (l : List Nat) (h : l ≠ []) :
    ((computeStats l).p50 ≤ (computeStats l).p95
      ∧ (computeStats l).p95 ≤ (computeStats l).p99)
    ∧ listMin l ≤ (computeStats l).avg ∧ (computeStats l).avg ≤ listMax l := by
  have hpos : 0 < l.length := List.length_pos.mpr h
  have hslen : (sortSeries l).length = l.length := sortSeries_length l
  have hspos : 0 < (sortSeries l).length := by omega
  have h95 : (sortSeries l).length * 95 / 100 < (sortSeries l).length := by omega
  have h99 : (sortSeries l).length * 99 / 100 < (sortSeries l).length := by omega
  have h5095 : (sortSeries l).length / 2 ≤ (sortSeries l).length * 95 / 100 := by
    omega
  have h9599 : (sortSeries l).length * 95 / 100
      ≤ (sortSeries l).length * 99 / 100 := by omega
  have hsorted := sortSeries_sorted l
  have hp50 : (computeStats l).p50
      = (sortSeries l).getD ((sortSeries l).length / 2) 0 := rfl
  have hp95 : (computeStats l).p95
      = (sortSeries l).getD ((sortSeries l).length * 95 / 100) 0 := rfl
  have hp99 : (computeStats l).p99
      = (sortSeries l).getD ((sortSeries l).length * 99 / 100) 0 := rfl
  have havg : (computeStats l).avg = l.sum / l.length := by
    simp only [computeStats]
    rw [sortSeries_length, sortSeries_sum, if_pos hpos]
  refine ⟨⟨?_, ?_⟩, ?_, ?_⟩
  · rw [hp50, hp95]
    exact sorted_getD_mono hsorted h5095 h95
  · rw [hp95, hp99]
    exact sorted_getD_mono hsorted h9599 h99
  · rw [havg, Nat.le_div_iff_mul_le hpos]
    exact listMin_mul_length_le_sum l
  · rw [havg]
    calc l.sum / l.length ≤ listMax l * l.length / l.length :=
          Nat.div_le_div_right (sum_le_listMax_mul_length l)
      _ = listMax l := Nat.mul_div_cancel (listMax l) hpos

/-- Witness for C7 at the series `[3, 1, 2]`. -/
theorem percentile_order_and_avg_bounds_witness :
    ((computeStats [3, 1, 2]).p50 ≤ (computeStats [3, 1, 2]).p95
      ∧ (computeStats [3, 1, 2]).p95 ≤ (computeStats [3, 1, 2]).p99)
    ∧ listMin [3, 1, 2] ≤ (computeStats [3, 1, 2]).avg
      ∧ (computeStats [3, 1, 2]).avg ≤ listMax [3, 1, 2] :=
  percentile_order_and_avg_bounds [3, 1, 2] (by decide)

/-- C10: on every non-empty series of length `L ≥ 1` the three percentile
indices `L/2`, `L*95/100` and `L*99/100` are strictly below `L`, so each
indexed lookup into the sorted series succeeds and the zero-duration fallback
is reserved for the empty series. -/
theorem percentile_indices_in_bounds (l : List Nat) (h : l ≠ []) :
    ((sortSeries l).length / 2 < (sortSeries l).length
      ∧ (sortSeries l).length * 95 / 100 < (sortSeries l).length
      ∧ (sortSeries l).length * 99 / 100 < (sortSeries l).length)
    ∧ (((sortSeries l).get? ((sortSeries l).length / 2)).isSome = true
      ∧ ((sortSeries l).get? ((sortSeries l).length * 95 / 100)).isSome = true
      ∧ ((sortSeries l).get? ((sortSeries l).length * 99 / 100)).isSome = true) := by
  have hpos : 0 < (sortSeries l).length := by
    rw [sortSeries_length]
    exact List.length_pos.mpr h
  have h50 : (sortSeries l).length / 2 < (sortSeries l).length := by omega
  have h95 : (sortSeries l).length * 95 / 100 < (sortSeries l).length := by omega
  have h99 : (sortSeries l).length * 99 / 100 < (sortSeries l).length := by omega
  refine ⟨⟨h50, h95, h99⟩, ?_, ?_, ?_⟩
  · rw [List.get?_eq_getElem?, List.getElem?_eq_getElem h50]
    rfl
  · rw [List.get?_eq_getElem?, List.getElem?_eq_getElem h95]
    rfl
  · rw [List.get?_eq_getElem?, List.getElem?_eq_getElem h99]
    rfl

/-- Witness for C10 at the series `[5]`. -/
theorem percentile_indices_in_bounds_witness :
    ((sortSeries [5]).length / 2 < (sortSeries [5]).length
      ∧ (sortSeries [5]).length * 95 / 100 < (sortSeries [5]).length
      ∧ (sortSeries [5]).length * 99 / 100 < (sortSeries [5]).length)
    ∧ (((sortSeries [5]).get? ((sortSeries [5]).length / 2)).isSome = true
      ∧ ((sortSeries [5]).get? ((sortSeries [5]).length * 95 / 100)).isSome = true
      ∧ ((sortSeries [5]).get? ((sortSeries [5]).length * 99 / 100)).isSome = true) :=
  percentile_indices_in_bounds [5] (by decide)

end Benchy
